import Mathlib

/-!
Verification development for the opencode-tokenscope token and cost
accounting engine.  The definitions below are a shallow embedding of the
TypeScript sources (src/plugin/tokenscope.ts and
src/plugin/tokenscope-lib/context.ts): JavaScript numbers holding token
counts are modelled as Nat, monetary amounts as Rat, optional fields as
Option, maps (insertion ordered) as association lists, and thrown
exceptions of fallible backends as Option results.
-/

/-! ## Data model (src/plugin/tokenscope.ts, interface declarations) -/

/-- Nested cache usage record, mirroring the optional
cache field of TokenUsage in the source. -/
structure CacheUsage where
  read : Option Nat := none
  write : Option Nat := none
deriving DecidableEq

/-- Provider telemetry attached to an assistant turn (interface TokenUsage). -/
structure TokenUsage where
  input : Option Nat := none
  output : Option Nat := none
  reasoning : Option Nat := none
  cache : Option CacheUsage := none
deriving DecidableEq

/-- Coercion used throughout the source in the shape Number(tokens.input) or 0. -/
def TokenUsage.inputD (t : TokenUsage) : Nat := t.input.getD 0

/-- Coercion used throughout the source in the shape Number(tokens.output) or 0. -/
def TokenUsage.outputD (t : TokenUsage) : Nat := t.output.getD 0

/-- Coercion used throughout the source in the shape Number(tokens.reasoning) or 0. -/
def TokenUsage.reasoningD (t : TokenUsage) : Nat := t.reasoning.getD 0

/-- Coercion for Number(tokens.cache?.read) or 0. -/
def TokenUsage.cacheReadD (t : TokenUsage) : Nat := (t.cache.bind CacheUsage.read).getD 0

/-- Coercion for Number(tokens.cache?.write) or 0. -/
def TokenUsage.cacheWriteD (t : TokenUsage) : Nat := (t.cache.bind CacheUsage.write).getD 0

/-- Status of a tool-call part (interface ToolState). -/
inductive ToolStatus where
  | pending
  | running
  | completed
  | error
deriving DecidableEq

/-- State carried by a tool-call part (interface ToolState). -/
structure ToolState where
  status : ToolStatus
  output : Option String := none
deriving DecidableEq

/-- One content part of a turn (type SessionMessagePart).  Parts of any
other type fall into the last constructor; the source only inspects the
three structured kinds via the isToolPart / isReasoningPart / isTextPart
guards. -/
inductive SessionMessagePart where
  | text (text : String) (synthetic : Bool)
  | reasoning (text : String)
  | tool (tool : String) (state : ToolState)
  | otherPart (type : String)
deriving DecidableEq

/-- Turn metadata (interface SessionMessageInfo). -/
structure SessionMessageInfo where
  id : String := ""
  role : String
  modelID : Option String := none
  providerID : Option String := none
  system : Option (List String) := none
  tokens : Option TokenUsage := none
  cost : Option ℚ := none
deriving DecidableEq

/-- One conversation turn (interface SessionMessage). -/
structure SessionMessage where
  info : SessionMessageInfo
  parts : List SessionMessagePart := []
deriving DecidableEq

/-- Telemetry token contribution of a turn: Number(tokens.input) or 0,
with a missing tokens object contributing 0 (the source guards each sum
with an if (tokens) check). -/
def msgInputD (m : SessionMessage) : Nat := (m.info.tokens.map TokenUsage.inputD).getD 0

/-- Output-token contribution of a turn, 0 when telemetry is absent. -/
def msgOutputD (m : SessionMessage) : Nat := (m.info.tokens.map TokenUsage.outputD).getD 0

/-- Reasoning-token contribution of a turn, 0 when telemetry is absent. -/
def msgReasoningD (m : SessionMessage) : Nat := (m.info.tokens.map TokenUsage.reasoningD).getD 0

/-- Cache-read contribution of a turn, 0 when telemetry is absent. -/
def msgCacheReadD (m : SessionMessage) : Nat := (m.info.tokens.map TokenUsage.cacheReadD).getD 0

/-- Cache-write contribution of a turn, 0 when telemetry is absent. -/
def msgCacheWriteD (m : SessionMessage) : Nat := (m.info.tokens.map TokenUsage.cacheWriteD).getD 0

/-- Cost contribution of a turn: Number(cost) or 0. -/
def msgCostD (m : SessionMessage) : ℚ := m.info.cost.getD 0

/-- Combined token fields of one telemetry snapshot, as summed inside the
find predicate of TokenAnalysisEngine.applyTelemetryAdjustments. -/
def msgUsageSum (m : SessionMessage) : Nat :=
  msgInputD m + msgOutputD m + msgReasoningD m + msgCacheReadD m + msgCacheWriteD m

/-! ## Category summaries (interfaces CategoryEntry / CategorySummary) -/

/-- A (label, token count) pair (interface CategoryEntry). -/
structure CategoryEntry where
  label : String
  tokens : Nat
deriving DecidableEq

/-- Per-category summary (interface CategorySummary). -/
structure CategorySummary where
  label : String
  totalTokens : Nat
  entries : List CategoryEntry
  allEntries : List CategoryEntry
deriving DecidableEq

/-- The five classifier categories of a TokenAnalysis. -/
structure Categories where
  system : CategorySummary
  user : CategorySummary
  assistant : CategorySummary
  tools : CategorySummary
  reasoning : CategorySummary
deriving DecidableEq

/-! ## Tokenizer policies (type TokenizerSpec, interface TokenModel) -/

/-- Tokenizer policy selected for the analysis (type TokenizerSpec). -/
inductive TokenizerSpec where
  | tiktoken (model : String)
  | transformers (hub : String)
  | approx
deriving DecidableEq

/-- Model identity plus the tokenizer policy resolved for it (interface TokenModel). -/
structure TokenModel where
  name : String
  spec : TokenizerSpec
deriving DecidableEq

/-- The analysis record produced by TokenAnalysisEngine.analyze (interface
TokenAnalysis).  The sessionID, allToolsCalled, toolCallCounts and
subagentAnalysis fields are carried separately by the claims that need
them and are omitted here. -/
structure TokenAnalysis where
  model : TokenModel
  categories : Categories
  totalTokens : Nat := 0
  inputTokens : Nat := 0
  outputTokens : Nat := 0
  reasoningTokens : Nat := 0
  cacheReadTokens : Nat := 0
  cacheWriteTokens : Nat := 0
  assistantMessageCount : Nat := 0
  mostRecentInput : Nat := 0
  mostRecentOutput : Nat := 0
  mostRecentReasoning : Nat := 0
  mostRecentCacheRead : Nat := 0
  mostRecentCacheWrite : Nat := 0
  sessionCost : ℚ := 0
  mostRecentCost : ℚ := 0
deriving DecidableEq

/-! ## JavaScript string primitives

The source manipulates JavaScript strings; the primitives it uses
(includes, split and pop, toLowerCase, startsWith, trim) are modelled
directly over the character list of the string so that every definition
is executable by the kernel. -/

/-- JS String.prototype.includes for a single character. -/
def jsContainsChar (s : String) (c : Char) : Bool := s.data.any (fun d => d == c)

/-- JS split on slash followed by pop: the segment after the last slash. -/
def jsAfterLastSlash (s : String) : String :=
  ⟨(s.data.reverse.takeWhile (fun c => c != Char.ofNat 47)).reverse⟩

/-- JS String.prototype.toLowerCase. -/
def jsToLower (s : String) : String := ⟨s.data.map Char.toLower⟩

/-- JS String.prototype.startsWith. -/
def jsStartsWith (s t : String) : Bool := t.data.isPrefixOf s.data

/-- Whitespace trim on a character list (String.prototype.trim). -/
def trimChars (l : List Char) : List Char :=
  ((l.dropWhile Char.isWhitespace).reverse.dropWhile Char.isWhitespace).reverse

/-- JS String.prototype.trim. -/
def jsTrim (s : String) : String := ⟨trimChars s.data⟩

/-! ## Cost calculator (class CostCalculator) -/

/-- Four per-million-token rates (interface ModelPricing). -/
structure ModelPricing where
  input : ℚ
  output : ℚ
  cacheWrite : ℚ
  cacheRead : ℚ
deriving DecidableEq

/-- The built-in fallback entry returned by getPricing when the table has
no matching key and no default key. -/
def builtinFallbackPricing : ModelPricing := ⟨1, 3, 0, 0⟩

/-- Property lookup on the pricing table.  The JavaScript object is
modelled as an insertion-ordered association list with distinct keys. -/
def lookupPricing (table : List (String × ModelPricing)) (key : String) : Option ModelPricing :=
  (table.find? (fun kv => kv.1 == key)).map (fun kv => kv.2)

/-- CostCalculator.normalizeModelName: take everything after the last
slash; an empty last segment (falsy pop result) falls back to the whole
name. -/
def normalizeModelName (modelName : String) : String :=
  if jsContainsChar modelName (Char.ofNat 47) then
    let last := jsAfterLastSlash modelName
    if last == "" then modelName else last
  else modelName

/-- CostCalculator.getPricing: exact key match on the normalized name,
else the first table entry whose key is a case-insensitive prefix of the
normalized name, else the default entry, else the built-in fallback. -/
def getPricing (table : List (String × ModelPricing)) (modelName : String) : ModelPricing :=
  let normalizedName := normalizeModelName modelName
  match lookupPricing table normalizedName with
  | some p => p
  | none =>
    let lowerModel := jsToLower normalizedName
    match table.find? (fun kv => jsStartsWith lowerModel (jsToLower kv.1)) with
    | some kv => kv.2
    | none =>
      match lookupPricing table "default" with
      | some p => p
      | none => builtinFallbackPricing

/-- Cost estimate produced by CostCalculator.calculateCost (interface CostEstimate). -/
structure CostEstimate where
  isSubscription : Bool
  apiSessionCost : ℚ
  apiMostRecentCost : ℚ
  estimatedSessionCost : ℚ
  estimatedInputCost : ℚ
  estimatedOutputCost : ℚ
  estimatedCacheReadCost : ℚ
  estimatedCacheWriteCost : ℚ
  pricePerMillionInput : ℚ
  pricePerMillionOutput : ℚ
  pricePerMillionCacheRead : ℚ
  pricePerMillionCacheWrite : ℚ
  inputTokens : Nat
  outputTokens : Nat
  reasoningTokens : Nat
  cacheReadTokens : Nat
  cacheWriteTokens : Nat
deriving DecidableEq

/-- CostCalculator.calculateCost. -/
def calculateCost (table : List (String × ModelPricing)) (analysis : TokenAnalysis) :
    CostEstimate :=
  let pricing := getPricing table analysis.model.name
  let hasActivity : Bool :=
    decide (0 < analysis.assistantMessageCount) &&
      (decide (0 < analysis.inputTokens) || decide (0 < analysis.outputTokens))
  let isSubscription : Bool := hasActivity && decide (analysis.sessionCost = 0)
  let estimatedInputCost := (analysis.inputTokens : ℚ) / 1000000 * pricing.input
  let estimatedOutputCost :=
    ((analysis.outputTokens + analysis.reasoningTokens : Nat) : ℚ) / 1000000 * pricing.output
  let estimatedCacheReadCost := (analysis.cacheReadTokens : ℚ) / 1000000 * pricing.cacheRead
  let estimatedCacheWriteCost := (analysis.cacheWriteTokens : ℚ) / 1000000 * pricing.cacheWrite
  { isSubscription := isSubscription
    apiSessionCost := analysis.sessionCost
    apiMostRecentCost := analysis.mostRecentCost
    estimatedSessionCost :=
      estimatedInputCost + estimatedOutputCost + estimatedCacheReadCost + estimatedCacheWriteCost
    estimatedInputCost := estimatedInputCost
    estimatedOutputCost := estimatedOutputCost
    estimatedCacheReadCost := estimatedCacheReadCost
    estimatedCacheWriteCost := estimatedCacheWriteCost
    pricePerMillionInput := pricing.input
    pricePerMillionOutput := pricing.output
    pricePerMillionCacheRead := pricing.cacheRead
    pricePerMillionCacheWrite := pricing.cacheWrite
    inputTokens := analysis.inputTokens
    outputTokens := analysis.outputTokens
    reasoningTokens := analysis.reasoningTokens
    cacheReadTokens := analysis.cacheReadTokens
    cacheWriteTokens := analysis.cacheWriteTokens }

/-! ## Tokenizer manager (class TokenizerManager) -/

/-- TokenizerManager.approximateTokenCount: Math.ceil(content.length / 4). -/
def approximateTokenCount (content : String) : Nat := (content.length + 3) / 4

/-- Pluggable encoder backends.  A backend call that would throw, fail to
load its module, or return a malformed encoding is modelled as none; the
source converts every such failure into the approximate count. -/
structure TokenizerBackend where
  tiktokenEncode : String → String → Option Nat
  transformersEncode : String → String → Option Nat

/-- Result of the encoder selected by the tokenizer spec; none both for a
failed encoder and for the approx policy, which uses no encoder. -/
def encoderResult (b : TokenizerBackend) (spec : TokenizerSpec) (content : String) :
    Option Nat :=
  match spec with
  | .approx => none
  | .tiktoken m => b.tiktokenEncode m content
  | .transformers h => b.transformersEncode h content

/-- TokenizerManager.countTokens: 0 for blank content, otherwise dispatch
on the policy, degrading every encoder failure (load or use, at either
the countTokens or the countWithTiktoken / countWithTransformers level)
to the approximate count. -/
def countTokens (b : TokenizerBackend) (content : String) (model : TokenModel) : Nat :=
  if jsTrim content == "" then 0
  else
    match model.spec with
    | .approx => approximateTokenCount content
    | .tiktoken m => (b.tiktokenEncode m content).getD (approximateTokenCount content)
    | .transformers h => (b.transformersEncode h content).getD (approximateTokenCount content)

/-! ## Category building (TokenAnalysisEngine.buildCategory)

The per-entry token counting is await-ed per source entry; the token
counter is abstracted as a pure function from content to count, which the
claims quantify over. -/

/-- A (label, content) source entry (interface CategoryEntrySource). -/
structure CategoryEntrySource where
  label : String
  content : String
deriving DecidableEq

/-- The entry-construction loop of buildCategory: count each source and
keep only entries with a positive token count. -/
def buildCategoryEntries (count : String → Nat) (sources : List CategoryEntrySource) :
    List CategoryEntry :=
  sources.filterMap (fun s =>
    if 0 < count s.content then some ⟨s.label, count s.content⟩ else none)

/-- The JavaScript comparator (a, b) => b.tokens - a.tokens: stable sort,
descending by token count. -/
def entryDescLE (a b : CategoryEntry) : Bool := b.tokens ≤ a.tokens

/-- TokenAnalysisEngine.buildCategory: build entries, sort descending by
tokens (Array.prototype.sort is stable), slice the top entryLimit, and sum
the full list into totalTokens. -/
def buildCategory (label : String) (sources : List CategoryEntrySource)
    (count : String → Nat) (entryLimit : Nat) : CategorySummary :=
  let entries := (buildCategoryEntries count sources).mergeSort entryDescLE
  { label := label
    totalTokens := (entries.map (fun e => e.tokens)).sum
    entries := entries.take entryLimit
    allEntries := entries }

/-! ## Content collectors (class ContentCollector), tool parts -/

/-- JavaScript Map.get(k): first binding of the key in the insertion
ordered association list. -/
def jsMapGet {α : Type} (m : List (String × α)) (k : String) : Option α :=
  (m.find? (fun kv => kv.1 == k)).map (fun kv => kv.2)

/-- JavaScript Map.set(k, v): overwrite in place when the key exists,
otherwise append, preserving insertion order. -/
def jsMapSet {α : Type} (m : List (String × α)) (k : String) (v : α) :
    List (String × α) :=
  if m.any (fun kv => kv.1 == k) then
    m.map (fun kv => if kv.1 == k then (k, v) else kv)
  else m ++ [(k, v)]

/-- Tool name defaulting: part.tool or the string tool (empty is falsy). -/
def partToolName (tool : String) : String := if tool == "" then "tool" else tool

/-- All parts of all messages, in message order then part order, as the
two nested for loops of the collectors iterate them. -/
def allParts (messages : List SessionMessage) : List SessionMessagePart :=
  messages.flatMap (fun m => m.parts)

/-- Loop body of ContentCollector.collectToolCallCounts. -/
def toolCountStep (acc : List (String × Nat)) (p : SessionMessagePart) :
    List (String × Nat) :=
  match p with
  | .tool tool _ =>
    let toolName := partToolName tool
    if toolName == "" then acc
    else jsMapSet acc toolName ((jsMapGet acc toolName).getD 0 + 1)
  | _ => acc

/-- ContentCollector.collectToolCallCounts: count every tool part,
whatever its status. -/
def collectToolCallCounts (messages : List SessionMessage) : List (String × Nat) :=
  (allParts messages).foldl toolCountStep []

/-- Loop body of ContentCollector.collectToolOutputs: only parts with
status completed and a non-blank output contribute; outputs of one tool
are concatenated with a blank-line separator. -/
def toolOutputStep (acc : List (String × String)) (p : SessionMessagePart) :
    List (String × String) :=
  match p with
  | .tool tool st =>
    if st.status == ToolStatus.completed then
      let output := jsTrim (st.output.getD "")
      if output == "" then acc
      else
        let toolName := partToolName tool
        let existing := (jsMapGet acc toolName).getD ""
        jsMapSet acc toolName
          (existing ++ (if existing == "" then "" else "\n\n") ++ output)
    else acc
  | _ => acc

/-- ContentCollector.collectToolOutputs (entries of the accumulated map;
the map entries are already (label, content) pairs). -/
def collectToolOutputs (messages : List SessionMessage) : List (String × String) :=
  (allParts messages).foldl toolOutputStep []

/-! ## Telemetry reconciliation (TokenAnalysisEngine.applyTelemetryAdjustments)

Each local binding of the source function becomes a named definition so
that the field-level claims can be stated about it. -/

/-- The assistants pool: assistant turns carrying a telemetry object or a
defined cost. -/
def assistantPool (messages : List SessionMessage) : List SessionMessage :=
  messages.filter (fun m =>
    m.info.role == "assistant" && (m.info.tokens.isSome || m.info.cost.isSome))

/-- The find predicate: a telemetry object is present and its combined
token fields sum to a positive number. -/
def hasPositiveUsage (m : SessionMessage) : Bool :=
  m.info.tokens.isSome && decide (0 < msgUsageSum m)

/-- The mostRecentWithUsage selection: reverse scan of the pool for
positive usage, with the last pool element as fallback. -/
def mostRecentWithUsage (messages : List SessionMessage) : Option SessionMessage :=
  match (assistantPool messages).reverse.find? hasPositiveUsage with
  | some m => some m
  | none => (assistantPool messages).getLast?

/-- Snapshot field extraction: the undefined selection leaves the
snapshot fields at their zero initialisation. -/
def optMsgField (f : SessionMessage → Nat) (o : Option SessionMessage) : Nat :=
  (o.map f).getD 0

/-- The inferred system total, Math.max(0, recentApiInputTotal -
localUserAndTools), computed over the integers as JavaScript does. -/
def inferredSystemTokens (analysis : TokenAnalysis) (messages : List SessionMessage) : Int :=
  let recentApiInputTotal : Nat :=
    optMsgField msgInputD (mostRecentWithUsage messages) +
      optMsgField msgCacheReadD (mostRecentWithUsage messages)
  let localUserAndTools : Nat :=
    analysis.categories.user.totalTokens + analysis.categories.tools.totalTokens
  max 0 ((recentApiInputTotal : Int) - (localUserAndTools : Int))

/-- The system-category fix-up: only a positive inferred total may
overwrite, and only a zero locally-detected system total is overwritten. -/
def adjustedCategories (analysis : TokenAnalysis) (messages : List SessionMessage) :
    Categories :=
  if 0 < inferredSystemTokens analysis messages ∧
      analysis.categories.system.totalTokens = 0 then
    let inferred := (inferredSystemTokens analysis messages).toNat
    let entries : List CategoryEntry := [⟨"System (inferred from API)", inferred⟩]
    { analysis.categories with
      system := { analysis.categories.system with
        totalTokens := inferred
        entries := entries
        allEntries := entries } }
  else analysis.categories

/-- TokenAnalysisEngine.applyTelemetryAdjustments: session-wide telemetry
sums, the most-recent-call snapshot, the system inference, and the final
recomputed totalTokens. -/
def applyTelemetryAdjustments (analysis : TokenAnalysis) (messages : List SessionMessage) :
    TokenAnalysis :=
  let assistants := assistantPool messages
  let categories := adjustedCategories analysis messages
  { analysis with
    inputTokens := (assistants.map msgInputD).sum
    outputTokens := (assistants.map msgOutputD).sum
    reasoningTokens := (assistants.map msgReasoningD).sum
    cacheReadTokens := (assistants.map msgCacheReadD).sum
    cacheWriteTokens := (assistants.map msgCacheWriteD).sum
    assistantMessageCount := assistants.length
    sessionCost := (assistants.map msgCostD).sum
    mostRecentCost := ((mostRecentWithUsage messages).map msgCostD).getD 0
    mostRecentInput := optMsgField msgInputD (mostRecentWithUsage messages)
    mostRecentOutput := optMsgField msgOutputD (mostRecentWithUsage messages)
    mostRecentReasoning := optMsgField msgReasoningD (mostRecentWithUsage messages)
    mostRecentCacheRead := optMsgField msgCacheReadD (mostRecentWithUsage messages)
    mostRecentCacheWrite := optMsgField msgCacheWriteD (mostRecentWithUsage messages)
    categories := categories
    totalTokens :=
      categories.system.totalTokens + categories.user.totalTokens +
        categories.assistant.totalTokens + categories.tools.totalTokens +
        categories.reasoning.totalTokens }

/-! ## Subagent analyzer (class SubagentAnalyzer)

The host session API is modelled as a tree handed to the analyzer: each
node carries the result of fetching its turns (none when the fetch
throws) and the list of its children (the child-session listing).  The
title-derived agent label does not influence any aggregate and is
omitted. -/

/-- One child session as reachable through the client: its turn fetch
result and its own children. -/
inductive SessionTree where
  | mk (turns : Option (List SessionMessage)) (children : List SessionTree)

/-- Turn fetch result of a node. -/
def SessionTree.turns : SessionTree → Option (List SessionMessage)
  | .mk t _ => t

/-- Children of a node. -/
def SessionTree.children : SessionTree → List SessionTree
  | .mk _ c => c

/-- Per-node summary (interface SubagentSummary, aggregate fields). -/
structure SubagentSummary where
  inputTokens : Nat
  outputTokens : Nat
  reasoningTokens : Nat
  cacheReadTokens : Nat
  cacheWriteTokens : Nat
  totalTokens : Nat
  apiCost : ℚ
  estimatedCost : ℚ
  assistantMessageCount : Nat
deriving DecidableEq

/-- Running aggregate (interface SubagentAnalysis). -/
structure SubagentAgg where
  subagents : List SubagentSummary
  totalInputTokens : Nat
  totalOutputTokens : Nat
  totalReasoningTokens : Nat
  totalCacheReadTokens : Nat
  totalCacheWriteTokens : Nat
  totalTokens : Nat
  totalApiCost : ℚ
  totalEstimatedCost : ℚ
  totalApiCalls : Nat
deriving DecidableEq

/-- The zero-initialised result of SubagentAnalyzer.analyzeChildSessions. -/
def emptySubagentAgg : SubagentAgg := ⟨[], 0, 0, 0, 0, 0, 0, 0, 0, 0⟩

/-- The model name tracked by the analyzeChildSession loop: each
assistant turn with a truthy modelID overwrites it, starting from the
string unknown. -/
def childModelName (messages : List SessionMessage) : String :=
  let ids := (messages.filter (fun m => m.info.role == "assistant")).filterMap
    (fun m => match m.info.modelID with
      | some s => if s == "" then none else some s
      | none => none)
  ids.getLast?.getD "unknown"

/-- Assistant turns of a child session. -/
def childAssistants (messages : List SessionMessage) : List SessionMessage :=
  messages.filter (fun m => m.info.role == "assistant")

/-- SubagentAnalyzer.analyzeChildSession: none when the turn fetch threw
or returned no messages, else the summed telemetry of the assistant
turns, with the estimated cost priced like CostCalculator (the private
getPricing of SubagentAnalyzer is the identical lookup). -/
def analyzeChildSession (table : List (String × ModelPricing))
    (turnsFetch : Option (List SessionMessage)) : Option SubagentSummary :=
  match turnsFetch with
  | none => none
  | some messages =>
    if messages.isEmpty then none
    else
      let assistants := childAssistants messages
      let inputTokens := (assistants.map msgInputD).sum
      let outputTokens := (assistants.map msgOutputD).sum
      let reasoningTokens := (assistants.map msgReasoningD).sum
      let cacheReadTokens := (assistants.map msgCacheReadD).sum
      let cacheWriteTokens := (assistants.map msgCacheWriteD).sum
      let apiCost := (assistants.map msgCostD).sum
      let totalTokens :=
        inputTokens + outputTokens + reasoningTokens + cacheReadTokens + cacheWriteTokens
      let pricing := getPricing table (childModelName messages)
      let estimatedCost :=
        (inputTokens : ℚ) / 1000000 * pricing.input +
          ((outputTokens + reasoningTokens : Nat) : ℚ) / 1000000 * pricing.output +
          (cacheReadTokens : ℚ) / 1000000 * pricing.cacheRead +
          (cacheWriteTokens : ℚ) / 1000000 * pricing.cacheWrite
      some
        { inputTokens := inputTokens
          outputTokens := outputTokens
          reasoningTokens := reasoningTokens
          cacheReadTokens := cacheReadTokens
          cacheWriteTokens := cacheWriteTokens
          totalTokens := totalTokens
          apiCost := apiCost
          estimatedCost := estimatedCost
          assistantMessageCount := assistants.length }

/-- Folding one summary into the running aggregate (the += block guarded
by if (summary)). -/
def addSummary (r : SubagentAgg) (s : SubagentSummary) : SubagentAgg :=
  { subagents := r.subagents ++ [s]
    totalInputTokens := r.totalInputTokens + s.inputTokens
    totalOutputTokens := r.totalOutputTokens + s.outputTokens
    totalReasoningTokens := r.totalReasoningTokens + s.reasoningTokens
    totalCacheReadTokens := r.totalCacheReadTokens + s.cacheReadTokens
    totalCacheWriteTokens := r.totalCacheWriteTokens + s.cacheWriteTokens
    totalTokens := r.totalTokens + s.totalTokens
    totalApiCost := r.totalApiCost + s.apiCost
    totalEstimatedCost := r.totalEstimatedCost + s.estimatedCost
    totalApiCalls := r.totalApiCalls + s.assistantMessageCount }

/-- Folding a nested aggregate into the running aggregate (the += block
after the recursive call). -/
def addNested (r n : SubagentAgg) : SubagentAgg :=
  { subagents := r.subagents ++ n.subagents
    totalInputTokens := r.totalInputTokens + n.totalInputTokens
    totalOutputTokens := r.totalOutputTokens + n.totalOutputTokens
    totalReasoningTokens := r.totalReasoningTokens + n.totalReasoningTokens
    totalCacheReadTokens := r.totalCacheReadTokens + n.totalCacheReadTokens
    totalCacheWriteTokens := r.totalCacheWriteTokens + n.totalCacheWriteTokens
    totalTokens := r.totalTokens + n.totalTokens
    totalApiCost := r.totalApiCost + n.totalApiCost
    totalEstimatedCost := r.totalEstimatedCost + n.totalEstimatedCost
    totalApiCalls := r.totalApiCalls + n.totalApiCalls }

/-- SubagentAnalyzer.analyzeChildSessions over the children of a parent:
for each direct child in order, fold in its own summary (skipped when its
turn fetch failed) and then the recursively aggregated totals of its own
children.  The += accumulation of the source loop is associative, so the
loop is written as its equivalent right fold. -/
def analyzeChildSessions (table : List (String × ModelPricing)) :
    List SessionTree → SubagentAgg
  | [] => emptySubagentAgg
  | .mk turns cs :: rest =>
    let own :=
      match analyzeChildSession table turns with
      | some s => addSummary emptySubagentAgg s
      | none => emptySubagentAgg
    addNested (addNested own (analyzeChildSessions table cs))
      (analyzeChildSessions table rest)

/-! ## System-prompt sectioning (ContextAnalyzer.parseSystemPromptSections)

The prompt is a list of characters; every regular expression of the
source pattern table reduces (over the whole-string match semantics the
source uses) to finding the first case-insensitive occurrence of a
literal and extending it lazily to the earliest stop literal or to the
end of the string, to a delimited block, or to the end of the string; the
matchers below implement exactly those semantics over the lowercased
prompt.  The token counter is abstracted as a pure function, as for
buildCategory. -/

/-- First index at or after which the needle occurs as a prefix. -/
def findIdx (needle : List Char) : List Char → Option Nat
  | [] => if needle.isEmpty then some 0 else none
  | c :: rest =>
    if needle.isPrefixOf (c :: rest) then some 0
    else (findIdx needle rest).map (fun i => i + 1)

/-- First index at or after i at which the needle occurs. -/
def findFrom (needle hay : List Char) (i : Nat) : Option Nat :=
  (findIdx needle (hay.drop i)).map (fun j => j + i)

/-- Lowercasing used to model the i flag of every pattern. -/
def lowerChars (s : List Char) : List Char := s.map Char.toLower

/-- End position of a lazy match: the earliest position at or after i
where one of the stop literals begins, else the end of the string (the
dollar alternative of each lookahead). -/
def stopEnd (stops : List (List Char)) (hay : List Char) (i : Nat) : Nat :=
  (stops.map (fun st => (findFrom st hay i).getD hay.length)).foldr min hay.length

/-- Matcher for patterns of the shape literal [^]*? (?= stops | dollar):
first occurrence of the literal, extended lazily to the earliest stop. -/
def literalUntil (lit : List Char) (stops : List (List Char)) (hay : List Char) :
    Option (Nat × Nat) :=
  match findIdx lit hay with
  | some i => some (i, stopEnd stops hay (i + lit.length))
  | none => none

/-- Matcher for the two block patterns openT [^]*? closeT: first opening
literal with a closing literal after it, matched lazily. -/
def delimitedMatcher (openT closeT : List Char) (hay : List Char) : Option (Nat × Nat) :=
  match findIdx openT hay with
  | some i =>
    match findFrom closeT hay (i + openT.length) with
    | some j => some (i, j + closeT.length)
    | none => none
  | none => none

/-- Matcher for the final pattern literal [^]*$ : first occurrence of the
literal, extended greedily to the end of the string. -/
def tailMatcher (lit : List Char) (hay : List Char) : Option (Nat × Nat) :=
  (findIdx lit hay).map (fun i => (i, hay.length))

/-- Stops of the identity pattern lookahead. -/
def identityStops : List (List Char) := ["\n\n#".data, "\n\nwhen".data, "\n\nimportant".data]

/-- Matcher for the anchored identity pattern: the prompt must begin with
one of the two role phrases. -/
def identityMatcher (hay : List Char) : Option (Nat × Nat) :=
  if ("you are claude code".data).isPrefixOf hay then
    some (0, stopEnd identityStops hay 19)
  else if ("you are opencode".data).isPrefixOf hay then
    some (0, stopEnd identityStops hay 16)
  else none

/-- The literal of the Response Guidelines pattern, containing an
apostrophe (character 39). -/
def answerLiteral : List Char :=
  "answer the user".data ++ [Char.ofNat 39] ++ "s request".data

/-- The ordered pattern table of parseSystemPromptSections, by label.
Every matcher operates on the lowercased prompt. -/
def sectionPatterns : List (String × (List Char → Option (Nat × Nat))) :=
  [("Identity & Role", identityMatcher),
   ("Tone & Style", literalUntil "# tone and style".data ["\n\n#".data]),
   ("Professional Objectivity", literalUntil "# professional objectivity".data ["\n\n#".data]),
   ("Task Management", literalUntil "# task management".data ["\n\n#".data]),
   ("Doing Tasks", literalUntil "# doing tasks".data ["\n\n#".data]),
   ("Tool Usage Policy", literalUntil "# tool usage policy".data ["\n\n#".data]),
   ("Code References", literalUntil "# code references".data ["\n\n#".data]),
   ("Environment Info", delimitedMatcher "<env>".data "</env>".data),
   ("Project Files", delimitedMatcher "<files>".data "</files>".data),
   ("Custom Instructions", literalUntil "instructions from:".data ["\n\nwhen making".data]),
   ("Function Calling",
     literalUntil "when making function calls".data ["\n\nanswer the user".data]),
   ("Response Guidelines", tailMatcher answerLiteral)]

/-- A claimed half-open character range of the prompt (the matchedRanges
entries of the source). -/
structure SPRange where
  start : Nat
  stop : Nat
deriving DecidableEq

/-- The overlap test of the source, verbatim: (start >= range.start &&
start < range.end) || (end > range.start && end <= range.end). -/
def rangeOverlapTest (start stop : Nat) (r : SPRange) : Bool :=
  (decide (r.start ≤ start) && decide (start < r.stop)) ||
    (decide (r.start < stop) && decide (stop ≤ r.stop))

/-- Slice of the prompt covered by a half-open range. -/
def sliceChars (hay : List Char) (start stop : Nat) : List Char :=
  (hay.drop start).take (stop - start)

/-- A labeled section of the system prompt (interface
SystemPromptSection; the constant description strings are omitted). -/
structure SystemPromptSection where
  label : String
  content : List Char
  tokens : Nat
deriving DecidableEq

/-- Loop body of the pattern loop of parseSystemPromptSections: a
non-empty match whose range passes the overlap test against every
already claimed range emits a section and claims its range. -/
def sectionStep (rawPrompt hayLC : List Char) (count : List Char → Nat)
    (st : List SystemPromptSection × List SPRange)
    (pat : String × (List Char → Option (Nat × Nat))) :
    List SystemPromptSection × List SPRange :=
  match pat.2 hayLC with
  | none => st
  | some (start, stop) =>
    if start < stop then
      if st.2.any (rangeOverlapTest start stop) then st
      else
        let content := trimChars (sliceChars rawPrompt start stop)
        (st.1 ++ [⟨pat.1, content, count content⟩], st.2 ++ [⟨start, stop⟩])
    else st

/-- Ascending stable sort of the claimed ranges (comparator
(a, b) => a.start - b.start). -/
def rangeAscLE (a b : SPRange) : Bool := a.start ≤ b.start

/-- The gap accumulation loop over the sorted claimed ranges, returning
the concatenated unclaimed content and the final lastEnd. -/
def gapStep (rawPrompt : List Char) (acc : List Char × Nat) (r : SPRange) :
    List Char × Nat :=
  (if acc.2 < r.start then acc.1 ++ sliceChars rawPrompt acc.2 r.start else acc.1,
   max acc.2 r.stop)

/-- ContextAnalyzer.parseSystemPromptSections: run the pattern table in
priority order claiming ranges, fall back to one whole-prompt section
when nothing matched, else emit the over-threshold unclaimed remainder as
a catch-all section; sections are finally sorted descending by token
count.  The internal matchedRanges list is returned alongside the
sections so that the range bookkeeping can be reasoned about. -/
def parseSystemPromptSections (count : List Char → Nat) (rawPrompt : List Char) :
    List SystemPromptSection × List SPRange :=
  let hayLC := lowerChars rawPrompt
  let parsed := sectionPatterns.foldl (sectionStep rawPrompt hayLC count) ([], [])
  if parsed.1.isEmpty then
    ([⟨"System Prompt", rawPrompt, count rawPrompt⟩], parsed.2)
  else
    let sorted := parsed.2.mergeSort rangeAscLE
    let gaps := sorted.foldl (gapStep rawPrompt) ([], 0)
    let unmatched :=
      if gaps.2 < rawPrompt.length then gaps.1 ++ rawPrompt.drop gaps.2 else gaps.1
    let trimmedRemaining := trimChars unmatched
    let sections :=
      if 100 < trimmedRemaining.length then
        if 50 < count trimmedRemaining then
          parsed.1 ++ [⟨"Other Instructions", trimmedRemaining, count trimmedRemaining⟩]
        else parsed.1
      else parsed.1
    (sections.mergeSort (fun a b => b.tokens ≤ a.tokens), parsed.2)

/-! ## Specification-side definitions for refinement claims -/

/-- Spec wording for claim C8: a turn whose token fields (fresh-input,
output, reasoning, cache-read, cache-write) sum to a positive number. -/
def specPositiveUsage (m : SessionMessage) : Bool := decide (0 < msgUsageSum m)

/-- Spec wording for claim C8: the last assistant turn, scanning
newest-first, whose token fields sum to a positive number; when no
assistant turn qualifies, the chronologically last assistant turn. -/
def specMostRecentCallTurn (messages : List SessionMessage) : Option SessionMessage :=
  let assistants := messages.filter (fun m => m.info.role == "assistant")
  match assistants.reverse.find? specPositiveUsage with
  | some m => some m
  | none => assistants.getLast?

/-- Predicate used to state claim C10: a tool part whose defaulted tool
name equals the given name, in any status. -/
def toolPartMatches (name : String) (p : SessionMessagePart) : Bool :=
  match p with
  | .tool tool _ => partToolName tool == name
  | _ => false

/-- Keep every part except tool parts whose status is not completed. -/
def keepCompletedPart (p : SessionMessagePart) : Bool :=
  match p with
  | .tool _ st => st.status == ToolStatus.completed
  | _ => true

/-- The turn sequence with every non-completed tool part removed, used to
state that only completed outputs reach the tools category (claim C10). -/
def completedToolPartsOnly (messages : List SessionMessage) : List SessionMessage :=
  messages.map (fun m => { m with parts := m.parts.filter keepCompletedPart })

/-! ## Concrete fixtures used by witnesses and counterexamples -/

/-- A category summary carrying only a total, for fixtures. -/
def fixtureCategory (n : Nat) : CategorySummary := ⟨"", n, [], []⟩

/-- Classifier output with the given system, user and tools totals. -/
def fixtureCategories (sys usr tls : Nat) : Categories :=
  ⟨fixtureCategory sys, fixtureCategory usr, fixtureCategory 0, fixtureCategory tls,
    fixtureCategory 0⟩

/-- The model of the worked pricing examples. -/
def modelSonnet : TokenModel := ⟨"claude-sonnet-4", TokenizerSpec.approx⟩

/-- Rates of the worked cost example: 3, 15, 3.75 and 0.30 dollars per
million tokens. -/
def sonnetPricing : ModelPricing := ⟨3, 15, 15 / 4, 3 / 10⟩

/-- One-entry pricing table for the worked cost example. -/
def sonnetTable : List (String × ModelPricing) := [("claude-sonnet-4", sonnetPricing)]

/-- Reconciled usage of the worked cost example of claim C4. -/
def analysisC4 : TokenAnalysis :=
  { model := modelSonnet
    categories := fixtureCategories 0 0 0
    inputTokens := 96
    outputTokens := 2691
    cacheReadTokens := 490200
    cacheWriteTokens := 114217 }

/-- An analysis with real activity and a tiny nonzero reported cost, for
the claim C5 witness. -/
def analysisC5 : TokenAnalysis :=
  { model := modelSonnet
    categories := fixtureCategories 0 0 0
    inputTokens := 10
    outputTokens := 4
    assistantMessageCount := 3
    sessionCost := 1 / 10000 }

/-- Classifier output of the worked inference example of claim C1: no
locally detected system prompt, 753 user tokens, 15202 tool tokens. -/
def analysisC1 : TokenAnalysis :=
  { model := modelSonnet, categories := fixtureCategories 0 753 15202 }

/-- Same classifier output but with a locally detected system total. -/
def analysisC1b : TokenAnalysis :=
  { model := modelSonnet, categories := fixtureCategories 7 753 15202 }

/-- The assistant turn of the worked inference example: fresh input 6,
cache read 32912. -/
def telemetryMsgC1 : SessionMessage :=
  { info := { role := "assistant"
              tokens := some { input := some 6, cache := some { read := some 32912 } } } }

/-- Pricing table with a default entry and no matching key. -/
def defaultTable : List (String × ModelPricing) :=
  [("other-model", ⟨9, 9, 9, 9⟩), ("default", ⟨1, 2, 3, 4⟩)]

/-- Pricing table where an exact key coexists with an earlier entry that
is also a case-insensitive prefix of the looked-up name. -/
def exactTable : List (String × ModelPricing) :=
  [("claude", ⟨9, 9, 9, 9⟩), ("claude-sonnet-4-20250514", ⟨5, 6, 7, 8⟩)]

/-- A backend whose every encoder call fails. -/
def failingBackend : TokenizerBackend := ⟨fun _ _ => none, fun _ _ => none⟩

/-- A tiktoken policy, for exercising the failure fallback of claim C9. -/
def tiktokenModelFixture : TokenModel := ⟨"gpt-4o", TokenizerSpec.tiktoken "gpt-4o"⟩

/-- The prompt exhibiting the overlap bug of claim C2: a custom
instruction block that textually contains an environment block. -/
def cBadPrompt : List Char :=
  "Instructions from: AGENTS.md\n<env>cwd=/x</env>\nTail".data

/-- An assistant turn with five fresh input tokens, for claim C3. -/
def childMsgC3 : SessionMessage :=
  { info := { role := "assistant", tokens := some { input := some 5 } } }

/-- A child whose turn fetch fails but whose own child session carries
telemetry, for claim C3. -/
def failingChildC3 : SessionTree :=
  .mk none [.mk (some [childMsgC3]) []]

/-- A turn with one pending tool part that produced output, for claim C10. -/
def pendingMsgC10 : SessionMessage :=
  { info := { role := "assistant" }
    parts := [.tool "grep" ⟨ToolStatus.pending, some "pending output"⟩] }

/-- One content source for the claim C7 witness. -/
def sourcesC7 : List CategoryEntrySource := [⟨"grep", "abcd"⟩]

/-! ## Theorems -/

/-- A successful pricing-table lookup returns an entry of the table. -/
theorem lookupPricing_mem {table : List (String × ModelPricing)} {key : String}
    {p : ModelPricing} (h : lookupPricing table key = some p) :
    p ∈ table.map (fun kv => kv.2) := by
  unfold lookupPricing at h
  rcases h2 : table.find? (fun kv => kv.1 == key) with _ | kv
  · rw [h2] at h
    simp at h
  · rw [h2] at h
    simp at h
    exact h ▸ List.mem_map_of_mem _ (List.mem_of_find?_eq_some h2)

/-- Claim C4: the estimated session cost is input/1e6 times the input
rate, plus (output + reasoning)/1e6 times the output rate (reasoning is
billed at the output rate), plus cacheRead/1e6 times the cache-read rate,
plus cacheWrite/1e6 times the cache-write rate; on the worked example
(96, 2691, 490200, 114217 tokens at 3, 15, 0.30 and 3.75 dollars per
million) the total is 0.61602675 dollars, within rounding of 0.6161. -/
theorem C4_cost_formula :
    (∀ (table : List (String × ModelPricing)) (a : TokenAnalysis),
        (calculateCost table a).estimatedSessionCost =
          (a.inputTokens : ℚ) / 1000000 * (getPricing table a.model.name).input +
            ((a.outputTokens + a.reasoningTokens : Nat) : ℚ) / 1000000 *
              (getPricing table a.model.name).output +
            (a.cacheReadTokens : ℚ) / 1000000 * (getPricing table a.model.name).cacheRead +
            (a.cacheWriteTokens : ℚ) / 1000000 * (getPricing table a.model.name).cacheWrite) ∧
    (calculateCost sonnetTable analysisC4).estimatedSessionCost = 61602675 / 100000000 ∧
    |(calculateCost sonnetTable analysisC4).estimatedSessionCost - 6161 / 10000| <
      1 / 1000 := by
  have hcost : (calculateCost sonnetTable analysisC4).estimatedSessionCost =
      ((96 : Nat) : ℚ) / 1000000 * sonnetPricing.input +
        (((2691 : Nat) + (0 : Nat) : Nat) : ℚ) / 1000000 * sonnetPricing.output +
        ((490200 : Nat) : ℚ) / 1000000 * sonnetPricing.cacheRead +
        ((114217 : Nat) : ℚ) / 1000000 * sonnetPricing.cacheWrite := rfl
  have hval : (calculateCost sonnetTable analysisC4).estimatedSessionCost =
      61602675 / 100000000 := by
    rw [hcost]
    norm_num [sonnetPricing]
  refine ⟨fun table a => rfl, hval, ?_⟩
  rw [hval, abs_lt]
  constructor <;> norm_num

/-- Claim C5: the subscription flag is true exactly when the
assistant-turn count is positive, at least one of the input or output
totals is positive, and the reported session cost is exactly zero; any
nonzero reported cost makes it false. -/
theorem C5_subscription_flag :
    ∀ (table : List (String × ModelPricing)) (a : TokenAnalysis),
      ((calculateCost table a).isSubscription = true ↔
        0 < a.assistantMessageCount ∧ (0 < a.inputTokens ∨ 0 < a.outputTokens) ∧
          a.sessionCost = 0) ∧
      (a.sessionCost ≠ 0 → (calculateCost table a).isSubscription = false) := by
  intro table a
  constructor
  · simp [calculateCost, and_assoc]
  · intro h
    simp [calculateCost, h]

/-- Witness for claim C5: with three assistant turns, activity, and a
reported cost of a ten-thousandth of a dollar, the flag is false. -/
theorem C5_subscription_flag_witness :
    (calculateCost sonnetTable analysisC5).isSubscription = false :=
  (C5_subscription_flag sonnetTable analysisC5).2 (by norm_num [analysisC5])

/-- Claim C6: the pricing lookup is total, always returning either an
entry of the table or the built-in fallback (never throwing); the
provider prefix is stripped; an exact key match wins over an earlier
prefix entry; the name claude-sonnet-4-20250514 resolves to the table key
claude-sonnet-4 by the case-insensitive prefix rule; an unknown name
falls back to the default entry, or to the built-in fallback when the
table has none. -/
theorem C6_pricing_lookup :
    (∀ (table : List (String × ModelPricing)) (name : String),
        getPricing table name ∈ table.map (fun kv => kv.2) ∨
          getPricing table name = builtinFallbackPricing) ∧
    getPricing sonnetTable "claude-sonnet-4-20250514" = sonnetPricing ∧
    getPricing sonnetTable "anthropic/claude-sonnet-4-20250514" = sonnetPricing ∧
    getPricing exactTable "claude-sonnet-4-20250514" = ⟨5, 6, 7, 8⟩ ∧
    getPricing defaultTable "mystery-model" = ⟨1, 2, 3, 4⟩ ∧
    getPricing [] "mystery-model" = builtinFallbackPricing := by
  refine ⟨?_, rfl, rfl, rfl, rfl, rfl⟩
  intro table name
  rcases h1 : lookupPricing table (normalizeModelName name) with _ | p
  · rcases h2 : table.find?
        (fun kv => jsStartsWith (jsToLower (normalizeModelName name)) (jsToLower kv.1))
        with _ | kv
    · rcases h3 : lookupPricing table "default" with _ | q
      · right
        simp [getPricing, h1, h2, h3]
      · left
        have hq : getPricing table name = q := by simp [getPricing, h1, h2, h3]
        rw [hq]
        exact lookupPricing_mem h3
    · left
      have hkv : getPricing table name = kv.2 := by simp [getPricing, h1, h2]
      rw [hkv]
      exact List.mem_map_of_mem _ (List.mem_of_find?_eq_some h2)
  · left
    have hp : getPricing table name = p := by simp [getPricing, h1]
    rw [hp]
    exact lookupPricing_mem h1

/-- Claim C9: token counting returns 0 for blank content whatever the
backend does, and degrades any encoder failure to the approximation
ceil(length/4) instead of propagating an error; the function is total, so
no exception escapes into the surrounding analysis. -/
theorem C9_count_tokens_safety :
    ∀ (b : TokenizerBackend) (content : String) (model : TokenModel),
      (jsTrim content = "" → countTokens b content model = 0) ∧
      (jsTrim content ≠ "" → encoderResult b model.spec content = none →
        countTokens b content model = approximateTokenCount content) := by
  intro b content model
  constructor
  · intro h
    simp [countTokens, h]
  · intro h henc
    have hne : (jsTrim content == "") = false := by simp [h]
    cases hspec : model.spec with
    | approx => simp [countTokens, hne, hspec]
    | tiktoken m =>
      rw [hspec] at henc
      simp [encoderResult] at henc
      simp [countTokens, hne, hspec, henc]
    | transformers hub =>
      rw [hspec] at henc
      simp [encoderResult] at henc
      simp [countTokens, hne, hspec, henc]

/-- Witness for claim C9: with a backend whose every call fails, blank
content counts to 0 and the five-character content abcde counts to the
approximation ceil(5/4) = 2. -/
theorem C9_count_tokens_safety_witness :
    countTokens failingBackend "   " tiktokenModelFixture = 0 ∧
    countTokens failingBackend "abcde" tiktokenModelFixture =
      approximateTokenCount "abcde" :=
  ⟨(C9_count_tokens_safety failingBackend "   " tiktokenModelFixture).1 (by decide),
   (C9_count_tokens_safety failingBackend "abcde" tiktokenModelFixture).2 (by decide) rfl⟩

/-- The final system total of the telemetry fix-up, as an if-then-else. -/
theorem adjustedCategories_system (a : TokenAnalysis) (messages : List SessionMessage) :
    (adjustedCategories a messages).system.totalTokens =
      if 0 < inferredSystemTokens a messages ∧ a.categories.system.totalTokens = 0 then
        (inferredSystemTokens a messages).toNat
      else a.categories.system.totalTokens := by
  unfold adjustedCategories
  split <;> rfl

/-- The inferred system total is the clamped difference and never negative. -/
theorem inferredSystemTokens_nonneg (a : TokenAnalysis) (messages : List SessionMessage) :
    0 ≤ inferredSystemTokens a messages := by
  unfold inferredSystemTokens
  exact le_max_left _ _

/-- Claim C1: after telemetry reconciliation the final system total
equals the classifier total whenever that total is nonzero, and equals
max(0, (mostRecentFreshInput + mostRecentCacheRead) - (classifier user
total + classifier tools total)) whenever the classifier system total is
exactly zero. -/
theorem C1_system_inference :
    ∀ (a : TokenAnalysis) (messages : List SessionMessage),
      (a.categories.system.totalTokens ≠ 0 →
        (applyTelemetryAdjustments a messages).categories.system.totalTokens =
          a.categories.system.totalTokens) ∧
      (a.categories.system.totalTokens = 0 →
        ((applyTelemetryAdjustments a messages).categories.system.totalTokens : Int) =
          max 0
            ((((applyTelemetryAdjustments a messages).mostRecentInput +
                  (applyTelemetryAdjustments a messages).mostRecentCacheRead : Nat) : Int) -
              ((a.categories.user.totalTokens +
                  a.categories.tools.totalTokens : Nat) : Int))) := by
  intro a messages
  have hcat : (applyTelemetryAdjustments a messages).categories =
      adjustedCategories a messages := rfl
  have hsys := adjustedCategories_system a messages
  constructor
  · intro hne
    rw [hcat, hsys, if_neg (fun hc => hne hc.2)]
  · intro hzero
    rw [hcat, hsys]
    have hgoal : max (0 : Int)
        ((((applyTelemetryAdjustments a messages).mostRecentInput +
            (applyTelemetryAdjustments a messages).mostRecentCacheRead : Nat) : Int) -
          ((a.categories.user.totalTokens + a.categories.tools.totalTokens : Nat) : Int)) =
        inferredSystemTokens a messages := rfl
    rw [hgoal]
    by_cases hpos : 0 < inferredSystemTokens a messages
    · rw [if_pos ⟨hpos, hzero⟩]
      exact Int.toNat_of_nonneg (inferredSystemTokens_nonneg a messages)
    · rw [if_neg (fun hc => hpos hc.1), hzero]
      exact (le_antisymm (not_lt.mp hpos) (inferredSystemTokens_nonneg a messages)).symm

/-- Witness for claim C1: a nonzero locally detected system total of 7 is
left unchanged, and with no local system tokens, fresh input 6, cache
read 32912, user total 753 and tools total 15202 the inferred system
total is 16963. -/
theorem C1_system_inference_witness :
    (applyTelemetryAdjustments analysisC1b [telemetryMsgC1]).categories.system.totalTokens =
      7 ∧
    ((applyTelemetryAdjustments analysisC1 [telemetryMsgC1]).categories.system.totalTokens :
      Int) = 16963 := by
  constructor
  · have h := (C1_system_inference analysisC1b [telemetryMsgC1]).1 (by decide)
    rw [h]
    decide
  · have h := (C1_system_inference analysisC1 [telemetryMsgC1]).2 rfl
    rw [h]
    decide

/-- Claim C2 (code bug): on the prompt of cBadPrompt the Custom
Instructions pattern matches the whole string, which strictly contains
the range already claimed by the Environment Info pattern; the overlap
test of the source recognises neither of its two one-sided disjuncts, so both
ranges are claimed: the claimed source ranges (29, 46) and (0, 51)
overlap, and the claimed lengths sum to 68 over a 51-character prompt,
double-counting the environment block. -/
theorem C2_sectioning_overlap_bug :
    (parseSystemPromptSections List.length cBadPrompt).2 = [⟨29, 46⟩, ⟨0, 51⟩] ∧
    (∃ r1 ∈ (parseSystemPromptSections List.length cBadPrompt).2,
      ∃ r2 ∈ (parseSystemPromptSections List.length cBadPrompt).2,
        r1 ≠ r2 ∧ max r1.start r2.start < min r1.stop r2.stop) ∧
    ((parseSystemPromptSections List.length cBadPrompt).2.map
        (fun r => r.stop - r.start)).sum = 68 ∧
    cBadPrompt.length = 51 := by
  refine ⟨by decide, by decide, by decide, by decide⟩

/-- Folding a nested aggregate into the zero aggregate is the identity. -/
theorem addNested_empty_left (n : SubagentAgg) : addNested emptySubagentAgg n = n := by
  cases n
  simp [addNested, emptySubagentAgg]

/-- Claim C3 (counterexample): a failing child whose own child session
carries five fresh input tokens still contributes those tokens to the
grand totals, so the totals differ from the tree with the failing
subtree removed, which totals zero. -/
theorem C3_failing_subtree_counterexample :
    failingChildC3.turns = none ∧
    (analyzeChildSessions [] [failingChildC3]).totalInputTokens = 5 ∧
    (analyzeChildSessions [] ([] : List SessionTree)).totalInputTokens = 0 := by
  refine ⟨rfl, ?_, by simp [analyzeChildSessions, emptySubagentAgg]⟩
  simp [failingChildC3, childMsgC3, analyzeChildSessions, analyzeChildSession,
    addSummary, addNested, emptySubagentAgg, childAssistants, msgInputD, TokenUsage.inputD]

/-- Claim C3 (amended): a child whose turn fetch fails contributes
exactly what a child with no turns would: its own summary is dropped but
its descendants are still aggregated, and the failure does not propagate
to the parent aggregation; only when the failing child has no children do
the totals equal those of the tree with the child removed. -/
theorem C3_failure_isolation :
    ∀ (table : List (String × ModelPricing)) (pre post cs : List SessionTree),
      analyzeChildSessions table (pre ++ SessionTree.mk none cs :: post) =
        analyzeChildSessions table (pre ++ SessionTree.mk (some []) cs :: post) ∧
      analyzeChildSessions table (pre ++ SessionTree.mk none [] :: post) =
        analyzeChildSessions table (pre ++ post) := by
  intro table pre post cs
  constructor
  · induction pre with
    | nil => simp [analyzeChildSessions, analyzeChildSession]
    | cons t rest ih =>
      obtain ⟨turns, children⟩ := t
      simp only [List.cons_append, analyzeChildSessions]
      rw [ih]
  · induction pre with
    | nil =>
      simp [analyzeChildSessions, analyzeChildSession, addNested_empty_left]
    | cons t rest ih =>
      obtain ⟨turns, children⟩ := t
      simp only [List.cons_append, analyzeChildSessions]
      rw [ih]

/-- Claim C7: for every category, totalTokens is the sum over allEntries,
entries is the top-N slice of allEntries for the configured limit,
allEntries is ordered descending by token count, and no zero-token entry
appears in entries or allEntries. -/
theorem C7_category_invariants :
    ∀ (label : String) (sources : List CategoryEntrySource) (count : String → Nat)
      (entryLimit : Nat),
      (buildCategory label sources count entryLimit).totalTokens =
        ((buildCategory label sources count entryLimit).allEntries.map
          (fun e => e.tokens)).sum ∧
      (buildCategory label sources count entryLimit).entries =
        (buildCategory label sources count entryLimit).allEntries.take entryLimit ∧
      (buildCategory label sources count entryLimit).allEntries.Pairwise
        (fun a b => b.tokens ≤ a.tokens) ∧
      (∀ e ∈ (buildCategory label sources count entryLimit).allEntries, 0 < e.tokens) ∧
      (∀ e ∈ (buildCategory label sources count entryLimit).entries, 0 < e.tokens) := by
  intro label sources count entryLimit
  have hAll : (buildCategory label sources count entryLimit).allEntries =
      (buildCategoryEntries count sources).mergeSort entryDescLE := rfl
  have hmem : ∀ e ∈ (buildCategory label sources count entryLimit).allEntries,
      0 < e.tokens := by
    intro e he
    rw [hAll] at he
    have he2 : e ∈ buildCategoryEntries count sources := List.mem_mergeSort.mp he
    rw [buildCategoryEntries, List.mem_filterMap] at he2
    obtain ⟨s, _, hs⟩ := he2
    by_cases hc : 0 < count s.content
    · rw [if_pos hc] at hs
      obtain rfl := Option.some.inj hs
      exact hc
    · rw [if_neg hc] at hs
      exact absurd hs (by simp)
  have hsorted : (buildCategory label sources count entryLimit).allEntries.Pairwise
      (fun a b => b.tokens ≤ a.tokens) := by
    rw [hAll]
    have := @List.sorted_mergeSort CategoryEntry entryDescLE
      (fun a b c h1 h2 => by
        simp only [entryDescLE, decide_eq_true_eq] at h1 h2 ⊢
        omega)
      (fun a b => by
        simp only [entryDescLE, Bool.or_eq_true, decide_eq_true_eq]
        omega)
      (buildCategoryEntries count sources)
    exact this.imp (fun h => by simpa [entryDescLE] using h)
  exact ⟨rfl, rfl, hsorted, hmem, fun e he => hmem e (List.take_subset _ _ he)⟩

/-- Witness for claim C7: on one source of four characters counted by
length, the sole entry has a positive count. -/
theorem C7_category_invariants_witness :
    0 < (CategoryEntry.mk "grep" 4).tokens := by
  have h4 : ("abcd" : String).length = 4 := rfl
  have hall : (buildCategory "tools" sourcesC7 String.length 3).allEntries =
      [⟨"grep", 4⟩] := by
    simp [buildCategory, buildCategoryEntries, sourcesC7, List.mergeSort_singleton, h4]
  exact (C7_category_invariants "tools" sourcesC7 String.length 3).2.2.2.1 ⟨"grep", 4⟩
    (by rw [hall]; exact List.mem_singleton_self _)

/-- A turn without a telemetry object has a zero combined token sum. -/
theorem msgUsageSum_eq_zero_of_tokens_none {m : SessionMessage}
    (h : m.info.tokens = none) : msgUsageSum m = 0 := by
  simp [msgUsageSum, msgInputD, msgOutputD, msgReasoningD, msgCacheReadD,
    msgCacheWriteD, h]

/-- The find predicate of the source agrees with the positive-sum
predicate of the spec on every turn. -/
theorem hasPositiveUsage_eq (m : SessionMessage) :
    hasPositiveUsage m = specPositiveUsage m := by
  unfold hasPositiveUsage specPositiveUsage
  cases h : m.info.tokens with
  | none =>
    simp [msgUsageSum_eq_zero_of_tokens_none h, h]
  | some t => simp [h]

/-- Filtering by two predicates that agree wherever the searched-for
predicate holds yields the same find result. -/
theorem find?_filter_congr {α : Type} (pos p q : α → Bool)
    (h : ∀ x, pos x = true → p x = q x) :
    ∀ l : List α, (l.filter p).find? pos = (l.filter q).find? pos := by
  intro l
  induction l with
  | nil => rfl
  | cons x xs ih =>
    by_cases hpos : pos x = true
    · have hpq := h x hpos
      rw [List.filter_cons, List.filter_cons, hpq]
      cases hq : q x with
      | false => simpa using ih
      | true => simp [List.find?_cons, hpos]
    · have hpos2 : pos x = false := by simpa using hpos
      rw [List.filter_cons, List.filter_cons]
      cases hp : p x <;> cases hq : q x <;>
        simp [List.find?_cons, hpos2, ih]

/-- Core of claim C8: for every token field bounded by the combined sum,
the snapshot source selected by the code (reverse find over the
telemetry-bearing assistant pool, falling back to the last pool element)
carries the same field value as the turn described by the spec (reverse
find over all assistant turns, falling back to the last assistant
turn). -/
theorem mostRecent_fields_agree (f : SessionMessage → Nat)
    (hf : ∀ m, f m ≤ msgUsageSum m) (messages : List SessionMessage) :
    optMsgField f (mostRecentWithUsage messages) =
      optMsgField f (specMostRecentCallTurn messages) := by
  have hfun : hasPositiveUsage = specPositiveUsage := funext hasPositiveUsage_eq
  have hPQ : ∀ x : SessionMessage, specPositiveUsage x = true →
      (x.info.role == "assistant" && (x.info.tokens.isSome || x.info.cost.isSome)) =
        (x.info.role == "assistant") := by
    intro x hx
    cases htok : x.info.tokens with
    | none =>
      exfalso
      have h0 := msgUsageSum_eq_zero_of_tokens_none htok
      simp [specPositiveUsage, h0] at hx
    | some t => simp [htok]
  have hcong := find?_filter_congr specPositiveUsage
    (fun m => m.info.role == "assistant" && (m.info.tokens.isSome || m.info.cost.isSome))
    (fun m => m.info.role == "assistant") hPQ messages.reverse
  simp only [mostRecentWithUsage, specMostRecentCallTurn, assistantPool, hfun]
  rw [← List.filter_reverse, ← List.filter_reverse, hcong]
  rcases hfind : (messages.reverse.filter
      (fun m => m.info.role == "assistant")).find? specPositiveUsage with _ | m
  · have hall : ∀ x ∈ messages.filter (fun m => m.info.role == "assistant"),
        specPositiveUsage x = false := by
      intro x hx
      have hx2 : x ∈ messages.reverse.filter (fun m => m.info.role == "assistant") := by
        rw [List.mem_filter] at hx ⊢
        exact ⟨List.mem_reverse.mpr hx.1, hx.2⟩
      simpa using List.find?_eq_none.mp hfind x hx2
    have hzero : ∀ x ∈ messages.filter (fun m => m.info.role == "assistant"),
        f x = 0 := by
      intro x hx
      have hfalse := hall x hx
      have hsum : msgUsageSum x = 0 := by
        by_contra hne
        have hlt : 0 < msgUsageSum x := Nat.pos_of_ne_zero hne
        simp [specPositiveUsage, hlt] at hfalse
      have := hf x
      omega
    have hsub : ∀ x, x ∈ messages.filter
        (fun m => m.info.role == "assistant" &&
          (m.info.tokens.isSome || m.info.cost.isSome)) →
        x ∈ messages.filter (fun m => m.info.role == "assistant") := by
      intro x hx
      rw [List.mem_filter] at hx ⊢
      refine ⟨hx.1, ?_⟩
      have h2 := hx.2
      simp only [Bool.and_eq_true] at h2
      exact h2.1
    have hL : optMsgField f ((messages.filter (fun m => m.info.role == "assistant" &&
        (m.info.tokens.isSome || m.info.cost.isSome))).getLast?) = 0 := by
      rcases hP : (messages.filter (fun m => m.info.role == "assistant" &&
          (m.info.tokens.isSome || m.info.cost.isSome))).getLast? with _ | mP
      · rw [hP]
        rfl
      · rw [hP]
        simpa [optMsgField] using
          hzero mP (hsub mP (List.mem_of_mem_getLast? (by simp [hP, Option.mem_def])))
    have hR : optMsgField f
        ((messages.filter (fun m => m.info.role == "assistant")).getLast?) = 0 := by
      rcases hQ : (messages.filter (fun m => m.info.role == "assistant")).getLast?
        with _ | mQ
      · rw [hQ]
        rfl
      · rw [hQ]
        simpa [optMsgField] using
          hzero mQ (List.mem_of_mem_getLast? (by simp [hQ, Option.mem_def]))
    rw [hfind]
    show optMsgField f ((messages.filter (fun m => m.info.role == "assistant" &&
        (m.info.tokens.isSome || m.info.cost.isSome))).getLast?) =
      optMsgField f ((messages.filter (fun m => m.info.role == "assistant")).getLast?)
    rw [hL, hR]
  · rw [hfind]

/-- Claim C8: the most-recent-call snapshot of the reconciler carries the
token fields of the last assistant turn, scanning newest-first, whose
token fields sum to a positive number, and when no assistant turn
qualifies it carries the token fields of the chronologically last
assistant turn (all zero in that case). -/
theorem C8_most_recent_snapshot :
    ∀ (a : TokenAnalysis) (messages : List SessionMessage),
      (applyTelemetryAdjustments a messages).mostRecentInput =
        optMsgField msgInputD (specMostRecentCallTurn messages) ∧
      (applyTelemetryAdjustments a messages).mostRecentOutput =
        optMsgField msgOutputD (specMostRecentCallTurn messages) ∧
      (applyTelemetryAdjustments a messages).mostRecentReasoning =
        optMsgField msgReasoningD (specMostRecentCallTurn messages) ∧
      (applyTelemetryAdjustments a messages).mostRecentCacheRead =
        optMsgField msgCacheReadD (specMostRecentCallTurn messages) ∧
      (applyTelemetryAdjustments a messages).mostRecentCacheWrite =
        optMsgField msgCacheWriteD (specMostRecentCallTurn messages) := by
  intro a messages
  exact ⟨mostRecent_fields_agree msgInputD (fun m => by unfold msgUsageSum; omega) messages,
    mostRecent_fields_agree msgOutputD (fun m => by unfold msgUsageSum; omega) messages,
    mostRecent_fields_agree msgReasoningD (fun m => by unfold msgUsageSum; omega) messages,
    mostRecent_fields_agree msgCacheReadD (fun m => by unfold msgUsageSum; omega) messages,
    mostRecent_fields_agree msgCacheWriteD (fun m => by unfold msgUsageSum; omega) messages⟩

/-- Looking up a key other than the updated one is unaffected by an
in-place map update. -/
theorem find?_mapUpdate_other {α : Type} (m : List (String × α)) (k j : String) (v : α)
    (h : j ≠ k) :
    (m.map (fun kv => if kv.1 == k then (k, v) else kv)).find? (fun kv => kv.1 == j) =
      m.find? (fun kv => kv.1 == j) := by
  induction m with
  | nil => rfl
  | cons kv rest ih =>
    rw [List.map_cons]
    by_cases hk : (kv.1 == k) = true
    · have hkeq : kv.1 = k := by simpa using hk
      have h1 : (k == j) = false := by simp [Ne.symm h]
      have h2 : (kv.1 == j) = false := by simp [hkeq, Ne.symm h]
      rw [if_pos hk]
      simp only [List.find?_cons, h1, h2]
      exact ih
    · rw [if_neg hk]
      by_cases hj : (kv.1 == j) = true
      · simp only [List.find?_cons, hj]
      · have hj2 : (kv.1 == j) = false := by simpa using hj
        simp only [List.find?_cons, hj2]
        exact ih

/-- When the key is present, the in-place map update is found first. -/
theorem find?_mapUpdate_self {α : Type} (m : List (String × α)) (k : String) (v : α)
    (hany : m.any (fun kv => kv.1 == k) = true) :
    (m.map (fun kv => if kv.1 == k then (k, v) else kv)).find? (fun kv => kv.1 == k) =
      some (k, v) := by
  induction m with
  | nil => simp at hany
  | cons kv rest ih =>
    rw [List.map_cons]
    by_cases hk : (kv.1 == k) = true
    · rw [if_pos hk]
      simp only [List.find?_cons, beq_self_eq_true]
    · have hk2 : (kv.1 == k) = false := by simpa using hk
      simp only [List.any_cons, hk2, Bool.false_or] at hany
      rw [if_neg hk]
      simp only [List.find?_cons, hk2]
      exact ih hany

/-- JS Map.set followed by Map.get of the same key yields the set value. -/
theorem jsMapGet_set_self {α : Type} (m : List (String × α)) (k : String) (v : α) :
    jsMapGet (jsMapSet m k v) k = some v := by
  unfold jsMapGet jsMapSet
  by_cases hany : (m.any (fun kv => kv.1 == k)) = true
  · rw [if_pos hany, find?_mapUpdate_self m k v hany]
    rfl
  · have hanyf : (m.any fun kv => kv.1 == k) = false := Bool.eq_false_iff.mpr hany
    have hnone : m.find? (fun kv => kv.1 == k) = none := by
      rw [List.find?_eq_none]
      intro x hx
      exact List.any_eq_false.mp hanyf x hx
    rw [if_neg hany, List.find?_append, hnone]
    simp [List.find?_cons]

/-- JS Map.set leaves lookups of other keys unchanged. -/
theorem jsMapGet_set_other {α : Type} (m : List (String × α)) (k j : String) (v : α)
    (h : j ≠ k) : jsMapGet (jsMapSet m k v) j = jsMapGet m j := by
  unfold jsMapGet jsMapSet
  by_cases hany : (m.any (fun kv => kv.1 == k)) = true
  · rw [if_pos hany, find?_mapUpdate_other m k j v h]
  · rw [if_neg hany, List.find?_append]
    have hlast : List.find? (fun kv => kv.1 == j) [(k, v)] = none := by
      simp [List.find?_cons, Ne.symm h]
    simp [hlast]

/-- The defaulted tool name is never the empty string. -/
theorem partToolName_ne_empty (tool : String) : (partToolName tool == "") = false := by
  unfold partToolName
  by_cases h : (tool == "") = true
  · rw [if_pos h]
    decide
  · rw [if_neg h]
    simpa using h

/-- Folding the call-count step counts every tool part of the folded
list, whatever its status. -/
theorem toolCount_foldl (ps : List SessionMessagePart) (acc : List (String × Nat))
    (name : String) :
    (jsMapGet (ps.foldl toolCountStep acc) name).getD 0 =
      (jsMapGet acc name).getD 0 + ps.countP (toolPartMatches name) := by
  induction ps generalizing acc with
  | nil => simp
  | cons p rest ih =>
    rw [List.foldl_cons, ih, List.countP_cons]
    cases p with
    | tool tool st =>
      simp only [toolCountStep]
      rw [partToolName_ne_empty tool]
      simp only [Bool.false_eq_true, if_false]
      by_cases hname : name = partToolName tool
      · subst hname
        rw [jsMapGet_set_self]
        have hm : toolPartMatches (partToolName tool)
            (SessionMessagePart.tool tool st) = true := by
          simp [toolPartMatches]
        rw [hm]
        simp
        omega
      · rw [jsMapGet_set_other _ _ _ _ hname]
        have hm : toolPartMatches name (SessionMessagePart.tool tool st) = false := by
          simp [toolPartMatches]
          exact fun hc => hname hc.symm
        rw [hm]
        simp
    | text t s => simp [toolCountStep, toolPartMatches]
    | reasoning t => simp [toolCountStep, toolPartMatches]
    | otherPart t => simp [toolCountStep, toolPartMatches]

/-- A fold whose step ignores filtered-out elements can be taken over the
filtered list. -/
theorem foldl_congr_filter {α β : Type} (step : β → α → β) (keep : α → Bool)
    (h : ∀ acc x, keep x = false → step acc x = acc) :
    ∀ (l : List α) (acc : β), l.foldl step acc = (l.filter keep).foldl step acc := by
  intro l
  induction l with
  | nil => intro acc; rfl
  | cons x xs ih =>
    intro acc
    by_cases hx : keep x = true
    · rw [List.foldl_cons, List.filter_cons, if_pos hx, List.foldl_cons, ih]
    · have hx2 : keep x = false := by simpa using hx
      rw [List.foldl_cons, h acc x hx2, List.filter_cons, if_neg hx, ih]

/-- Removing non-completed tool parts from every turn filters the flat
part list. -/
theorem allParts_completedOnly (messages : List SessionMessage) :
    allParts (completedToolPartsOnly messages) =
      (allParts messages).filter keepCompletedPart := by
  induction messages with
  | nil => rfl
  | cons m rest ih =>
    unfold completedToolPartsOnly at ih ⊢
    unfold allParts at ih ⊢
    simp only [List.map_cons, List.flatMap_cons, List.filter_append]
    rw [ih]

/-- The output-collection step ignores every non-completed tool part. -/
theorem toolOutputStep_ignores (acc : List (String × String)) (p : SessionMessagePart)
    (h : keepCompletedPart p = false) : toolOutputStep acc p = acc := by
  cases p with
  | tool tool st =>
    simp only [keepCompletedPart] at h
    simp only [toolOutputStep, h]
    simp
  | text t s => simp [keepCompletedPart] at h
  | reasoning t => simp [keepCompletedPart] at h
  | otherPart t => simp [keepCompletedPart] at h

/-- Claim C10: the per-tool call counts count every tool part regardless
of status, while the tool outputs feeding the tools category are
unchanged when every non-completed tool part is removed (only completed
outputs contribute); in particular a single pending grep part yields a
call count of one and no output entry. -/
theorem C10_tool_counting :
    ∀ (messages : List SessionMessage),
      (∀ name, (jsMapGet (collectToolCallCounts messages) name).getD 0 =
        (allParts messages).countP (toolPartMatches name)) ∧
      collectToolOutputs messages =
        collectToolOutputs (completedToolPartsOnly messages) ∧
      (jsMapGet (collectToolCallCounts [pendingMsgC10]) "grep").getD 0 = 1 ∧
      collectToolOutputs [pendingMsgC10] = [] := by
  intro messages
  refine ⟨?_, ?_, by decide, by decide⟩
  · intro name
    have h := toolCount_foldl (allParts messages) [] name
    simpa [collectToolCallCounts, jsMapGet] using h
  · unfold collectToolOutputs
    rw [allParts_completedOnly,
      ← foldl_congr_filter toolOutputStep keepCompletedPart toolOutputStep_ignores]
